import Mathlib

/-!
Shallow embedding of `src/models/database.py` (FASTAPI-BASIC).

The file models:

* `Base.__tablename__` — the table-name derivation (a pure string
  transformation) — as `Base.tablename`;
* the `AbstractClass` active-record mixin (create / update / get / count /
  delete_by_id / delete / filter / run_query) as functions over an explicit
  session-visible database state `DB`.

Modelling decisions, kept faithful to the source:

* A row is a primary-key `id` plus named integer-valued columns
  (`Row.fields`).  The concrete column value type is irrelevant to the
  claims; `Int` stands for any column value.
* `DB.committed` is the durable database state; `DB.current` is the state
  seen through the one process-wide session's open transaction.  Queries
  issued through the session (`db.execute`) see `current` (SQLAlchemy
  autoflushes staged changes before a query).  `commit` makes `current`
  durable; `rollback` reverts `current` to `committed`.
* The underlying engine is external, so each `db.execute` call takes an
  error oracle (`Option DBError`; `some e` means the engine raised `e`),
  and each underlying `db.commit` likewise.  An operation that lets errors
  propagate returns `Except DBError _`; `AbstractClass.commit` catches any
  commit error, prints it and rolls back, so it is a total function on
  states and never produces an `Except.error`.
* `cls(**kwargs)` with an autoincrement `BigInteger` primary key assigns a
  fresh id at flush time: modelled as `freshId`, one more than the largest
  id in the session state.
* A query result row is a list of `Cell`s (either a whole mapped entity or
  a single column value).  `.scalars()` keeps the first cell of each
  result row, `.scalar()` the first cell of the first row — exactly what
  SQLAlchemy's `Result.scalars()` / `Result.scalar()` do.
* `selectinload(relationship)` only changes the loading strategy of an
  already-selected relationship attribute, never which rows are returned,
  so the `relationship` argument has no observable effect in this model
  and is omitted.
-/

/-- Loop body of `Base.__tablename__`: starting from `__name = name[:1]`,
for each remaining character append `'_'` first when the character is
upper-case, then the character itself. -/
def camelLoop : List Char → List Char → List Char
  | acc, [] => acc
  | acc, c :: cs => camelLoop ((if c.isUpper then acc ++ ['_'] else acc) ++ [c]) cs

/-- Table name derivation of `Base.__tablename__`: run the underscore
insertion loop over `name[1:]` starting from `name[:1]`, lower-case the
result, turn a trailing `'y'` into `"ie"`, and append `'s'`. -/
def Base.tablename (name : String) : String :=
  let n1 := camelLoop (name.data.take 1) (name.data.drop 1)
  let n2 := n1.map Char.toLower
  let n3 := if n2.getLast? = some 'y' then n2.dropLast ++ ['i', 'e'] else n2
  String.mk (n3 ++ ['s'])

/-- Table-name rule as the spec words it (for comparison with
`Base.tablename`): insert an underscore before each internal capital
letter, lower-case the result, then pluralize — a trailing `'y'` becomes
`"ie"` followed by `'s'`, otherwise `'s'` is appended. -/
def tablenameSpec (name : String) : String :=
  let split :=
    match name.data with
    | [] => []
    | c :: cs => c :: (cs.map (fun d : Char => if d.isUpper then ['_', d] else [d])).flatten
  let low := split.map Char.toLower
  String.mk (if low.getLast? = some 'y' then low.dropLast ++ ['i', 'e', 's'] else low ++ ['s'])

/-- A persisted row: the integer primary key `id` (from `BaseModel.id`)
plus the entity's other columns as name/value pairs. -/
structure Row where
  id : Nat
  fields : List (String × Int)
deriving DecidableEq, Repr

/-- Column read: the value stored under column name `f` (`0` for a column
the row does not carry). -/
def Row.getAttr (r : Row) (f : String) : Int := (r.fields.lookup f).getD 0

/-- Column write, as performed by an UPDATE `values(f=v)` on one row. -/
def Row.setAttr (r : Row) (f : String) (v : Int) : Row :=
  ⟨r.id, (f, v) :: r.fields.filter (fun p => !(p.1 == f))⟩

/-- Apply a kwargs dictionary of column writes left to right. -/
def Row.setAttrs (r : Row) (kwargs : List (String × Int)) : Row :=
  kwargs.foldl (fun acc p => acc.setAttr p.1 p.2) r

/-- Session-visible database state: `committed` is the durable state,
`current` what queries through the open transaction see. -/
structure DB where
  committed : List Row
  current : List Row
deriving DecidableEq, Repr

/-- An opaque error raised by the underlying database engine. -/
inductive DBError where
  | mk (msg : String)
deriving DecidableEq, Repr

/-- Underlying `db.commit`: the transaction's state becomes durable. -/
def DB.commitState (s : DB) : DB := ⟨s.current, s.current⟩

/-- Underlying `db.rollback`: the transaction's state reverts to the
durable state. -/
def DB.rollbackState (s : DB) : DB := ⟨s.committed, s.committed⟩

/-- `AbstractClass.commit`: `try: await db.commit()` — on any exception,
print it and roll back; the exception is never re-raised, so the result is
always an ordinary state, whatever the commit oracle `err` says. -/
def AbstractClass.commit (err : Option DBError) (s : DB) : DB :=
  match err with
  | none => s.commitState
  | some _ => s.rollbackState

/-- Largest primary key present in a list of rows (`0` when empty). -/
def maxId : List Row → Nat
  | [] => 0
  | r :: rs => max r.id (maxId rs)

/-- Fresh autoincrement primary key assigned when a new object is flushed. -/
def freshId (rows : List Row) : Nat := maxId rows + 1

/-- `db.refresh(obj)`: re-fetch the object's row by primary key from the
session state (the object is left as-is when no row is found). -/
def sessionRefresh (s : DB) (obj : Row) : Row :=
  (s.current.find? (fun r => r.id == obj.id)).getD obj

/-- `AbstractClass.create`: construct `cls(**kwargs)` (fresh primary key,
columns from the kwargs), stage it with `db.add`, `commit`, `refresh` the
object, and return it together with the resulting state. -/
def AbstractClass.create (commitErr : Option DBError) (s : DB)
    (kwargs : List (String × Int)) : DB × Row :=
  let object_ : Row := ⟨freshId s.current, kwargs⟩
  let s1 : DB := ⟨s.committed, s.current ++ [object_]⟩
  let s2 := AbstractClass.commit commitErr s1
  (s2, sessionRefresh s2 object_)

/-- `AbstractClass.update`: execute `UPDATE cls SET kwargs WHERE id = id_`
through the session (the execute error oracle comes first), then `commit`. -/
def AbstractClass.update (execErr commitErr : Option DBError) (s : DB)
    (id_ : Nat) (kwargs : List (String × Int)) : Except DBError DB :=
  match execErr with
  | some e => Except.error e
  | none =>
      Except.ok (AbstractClass.commit commitErr
        ⟨s.committed, s.current.map (fun r => if r.id == id_ then r.setAttrs kwargs else r)⟩)

/-- `AbstractClass.get`: execute `SELECT cls WHERE criteria` and take
`.scalar()` — the first returned row, or the none-value. -/
def AbstractClass.get (execErr : Option DBError) (s : DB)
    (criteria : Row → Bool) : Except DBError (Option Row) :=
  match execErr with
  | some e => Except.error e
  | none => Except.ok ((s.current.filter criteria).head?)

/-- `AbstractClass.count`: execute `SELECT count() FROM cls` and take
`.scalar()`. -/
def AbstractClass.count (execErr : Option DBError) (s : DB) :
    Except DBError Nat :=
  match execErr with
  | some e => Except.error e
  | none => Except.ok s.current.length

/-- `AbstractClass.delete_by_id`: execute `DELETE FROM cls WHERE id = id_`,
then `commit`. -/
def AbstractClass.delete_by_id (execErr commitErr : Option DBError) (s : DB)
    (id_ : Nat) : Except DBError DB :=
  match execErr with
  | some e => Except.error e
  | none =>
      Except.ok (AbstractClass.commit commitErr
        ⟨s.committed, s.current.filter (fun r => !(r.id == id_))⟩)

/-- `AbstractClass.delete` (instance method): execute
`DELETE FROM self.__class__ WHERE id = self.id`, then `commit`. -/
def AbstractClass.delete (execErr commitErr : Option DBError) (s : DB)
    (self : Row) : Except DBError DB :=
  match execErr with
  | some e => Except.error e
  | none =>
      Except.ok (AbstractClass.commit commitErr
        ⟨s.committed, s.current.filter (fun r => !(r.id == self.id))⟩)

/-- One cell of a query result row: a whole mapped entity, or one selected
column value. -/
inductive Cell where
  | entity (r : Row)
  | value (v : Int)
deriving DecidableEq, Repr

/-- `Result.scalars()`: keep the first cell of each result row. -/
def scalars (rows : List (List Cell)) : List Cell := rows.filterMap List.head?

/-- `AbstractClass.filter`: build `select(*columns)` when `columns` is
given (truthy, i.e. nonempty), else `select(cls)`; add the WHERE clause;
execute; return `.scalars()`. -/
def AbstractClass.filter (execErr : Option DBError) (s : DB)
    (criteria : Row → Bool) (columns : List String) : Except DBError (List Cell) :=
  match execErr with
  | some e => Except.error e
  | none =>
      let rows :=
        if columns.isEmpty then
          (s.current.filter criteria).map (fun r => [Cell.entity r])
        else
          (s.current.filter criteria).map
            (fun r => columns.map (fun c => Cell.value (r.getAttr c)))
      Except.ok (scalars rows)

/-- `AbstractClass.run_query`: execute an arbitrary pre-built query
(modelled as a function from the session state to result rows) and
materialize `.scalars().all()`. -/
def AbstractClass.run_query (execErr : Option DBError) (s : DB)
    (query : DB → List (List Cell)) : Except DBError (List Cell) :=
  match execErr with
  | some e => Except.error e
  | none => Except.ok (scalars (query s))

/-- Column-selection result as the spec words it (for comparison with
`AbstractClass.filter`): for each matching row, the selected subset of
fields. -/
def filterColumnsSpec (s : DB) (criteria : Row → Bool)
    (columns : List String) : List (List Int) :=
  (s.current.filter criteria).map (fun r => columns.map (fun c => r.getAttr c))

/-! Helper lemmas -/

/-- Unrolling the table-name loop: it appends, for each remaining
character, an optional underscore and the character itself. -/
theorem camelLoop_eq_append (cs : List Char) : ∀ acc : List Char,
    camelLoop acc cs
      = acc ++ (cs.map (fun d : Char => if d.isUpper then ['_', d] else [d])).flatten := by
  induction cs with
  | nil => intro acc; simp [camelLoop]
  | cons c cs ih =>
      intro acc
      by_cases h : c.isUpper <;>
        simp [camelLoop, h, ih, List.append_assoc]

/-- Every row's id is bounded by `maxId`. -/
theorem id_le_maxId (r : Row) (rows : List Row) (h : r ∈ rows) :
    r.id ≤ maxId rows := by
  induction rows with
  | nil => cases h
  | cons x xs ih =>
      rcases List.mem_cons.mp h with h | h
      · subst h; exact Nat.le_max_left _ _
      · exact Nat.le_trans (ih h) (Nat.le_max_right _ _)

/-- No existing row carries the fresh autoincrement id. -/
theorem id_beq_freshId (r : Row) (rows : List Row) (h : r ∈ rows) :
    (r.id == freshId rows) = false := by
  have hle := id_le_maxId r rows h
  have : r.id ≠ freshId rows := by
    unfold freshId; omega
  simpa using this

/-- `find?` skips a prefix on which the predicate is everywhere false. -/
theorem find?_append_of_all_false {α : Type} (p : α → Bool) (l1 l2 : List α)
    (h : ∀ x ∈ l1, p x = false) : (l1 ++ l2).find? p = l2.find? p := by
  induction l1 with
  | nil => rfl
  | cons x xs ih =>
      have hx : p x = false := h x (List.mem_cons_self x xs)
      simp only [List.cons_append, List.find?_cons, hx]
      exact ih (fun y hy => h y (List.mem_cons_of_mem x hy))

/-- Filtering by `p` after keeping only the rows refuting `p` leaves
nothing. -/
theorem filter_filter_not {α : Type} (p : α → Bool) (l : List α) :
    (l.filter (fun a => !(p a))).filter p = [] := by
  rw [List.filter_eq_nil_iff]
  intro a ha
  have := (List.mem_filter.mp ha).2
  simp at this
  simp [this]

/-- Splitting a length by a boolean predicate. -/
theorem length_filter_add_length_filter_not {α : Type} (p : α → Bool)
    (l : List α) :
    (l.filter p).length + (l.filter (fun a => !(p a))).length = l.length := by
  induction l with
  | nil => rfl
  | cons x xs ih =>
      by_cases h : p x <;> simp [h, List.filter_cons] <;> omega

/-- With pairwise-distinct ids, a present id is matched by exactly one
row. -/
theorem length_filter_id_eq_one (id_ : Nat) (l : List Row)
    (hnd : (l.map Row.id).Nodup) (hex : ∃ r ∈ l, r.id = id_) :
    (l.filter (fun r => r.id == id_)).length = 1 := by
  induction l with
  | nil => rcases hex with ⟨r, hr, _⟩; cases hr
  | cons x xs ih =>
      rw [List.map_cons, List.nodup_cons] at hnd
      by_cases hx : x.id = id_
      · have hnil : xs.filter (fun r => r.id == id_) = [] := by
          rw [List.filter_eq_nil_iff]
          intro r hr hcon
          exact hnd.1 (by
            rw [List.mem_map]
            exact ⟨r, hr, by simp at hcon; omega⟩)
        simp [List.filter_cons, hx, hnil]
      · rcases hex with ⟨r, hr, hrid⟩
        rcases List.mem_cons.mp hr with h | h
        · subst h; exact absurd hrid hx
        · have : (x.id == id_) = false := by simpa using hx
          simp [List.filter_cons, this]
          exact ih hnd.2 ⟨r, h, hrid⟩

/-- A targeted UPDATE whose id matches no row rewrites nothing. -/
theorem map_update_id_of_absent (id_ : Nat) (kwargs : List (String × Int))
    (l : List Row) (h : ∀ r ∈ l, r.id ≠ id_) :
    l.map (fun r => if r.id == id_ then r.setAttrs kwargs else r) = l := by
  induction l with
  | nil => rfl
  | cons x xs ih =>
      have hx : (x.id == id_) = false := by
        simpa using h x (List.mem_cons_self x xs)
      simp only [List.map_cons, hx, Bool.false_eq_true, if_false]
      rw [ih (fun r hr => h r (List.mem_cons_of_mem x hr))]

/-- Scalars of entity rows are the entities themselves. -/
theorem scalars_entity_rows (l : List Row) :
    scalars (l.map (fun r => [Cell.entity r])) = l.map Cell.entity := by
  induction l with
  | nil => rfl
  | cons x xs ih => simp [scalars, List.filterMap_cons] at ih ⊢; exact ih

/-- Scalars keep only the first selected column of each result row. -/
theorem scalars_column_rows (c : String) (cs : List String) (l : List Row) :
    scalars (l.map (fun r => (c :: cs).map (fun d => Cell.value (r.getAttr d))))
      = l.map (fun r => Cell.value (r.getAttr c)) := by
  induction l with
  | nil => rfl
  | cons x xs ih => simp [scalars, List.filterMap_cons] at ih ⊢; exact ih

/-! Concrete inputs used by witnesses and counterexamples -/

/-- Concrete row with id 1. -/
def rowA : Row := ⟨1, [("a", 1)]⟩

/-- Concrete row with id 2. -/
def rowB : Row := ⟨2, [("a", 5)]⟩

/-- Concrete clean two-row state. -/
def db4 : DB := ⟨[rowA, rowB], [rowA, rowB]⟩

/-- Concrete row carrying two columns. -/
def row8 : Row := ⟨1, [("a", 1), ("b", 2)]⟩

/-- Concrete clean one-row state over `row8`. -/
def db8 : DB := ⟨[row8], [row8]⟩

/-- Concrete engine error. -/
def err0 : DBError := DBError.mk "constraint violation"

/-! Claims -/

/-- C2: for every entity type name the derived table name equals the
spec's rule — underscore before each internal capital, lower-cased,
pluralized with trailing `y` becoming `ie` + `s` — and in particular
`UserAccount` maps to `user_accounts` and `Category` to `categories`;
the mapping is a pure function of the name (it is a Lean function). -/
theorem C2_tablename_follows_spec_rule :
    (∀ name : String, Base.tablename name = tablenameSpec name)
    ∧ Base.tablename "UserAccount" = "user_accounts"
    ∧ Base.tablename "Category" = "categories" := by
  refine ⟨?_, rfl, rfl⟩
  intro name
  unfold Base.tablename tablenameSpec
  cases hd : name.data with
  | nil => simp [camelLoop]
  | cons c cs =>
      simp only [List.take, List.drop, camelLoop_eq_append, List.singleton_append]
      congr 1
      split <;> rename_i h <;> simp [h, List.append_assoc]

/-- C10: the instance method `delete` has exactly the same effect as the
class method `delete_by_id` applied to the object's primary key, for every
state and every outcome of the engine oracles. -/
theorem C10_delete_equiv_delete_by_id (execErr commitErr : Option DBError)
    (s : DB) (self : Row) :
    AbstractClass.delete execErr commitErr s self
      = AbstractClass.delete_by_id execErr commitErr s self.id := by
  cases execErr <;> rfl

/-- C9 counterexample: the claim includes `delete` among the operations
that let every underlying database error propagate, but a database error
raised by the commit that `delete` performs is swallowed by
`AbstractClass.commit` — at the concrete state `db8`, deleting `row8`
while the underlying commit raises `err0` returns an ordinary result (the
rolled-back state, which equals `db8` itself), not an error. -/
theorem C9_counterexample :
    AbstractClass.delete none (some err0) db8 row8 = Except.ok db8 := rfl

/-- C9 amended: `get`, `filter`, `count` and `run_query` let every
underlying engine error propagate unmodified; `delete` propagates errors
raised while executing its DELETE statement, but an error raised by
its subsequent commit is caught, printed and rolled back, never reaching
the caller. -/
theorem C9_error_propagation (e : DBError) (cerr : Option DBError) (s : DB)
    (criteria : Row → Bool) (columns : List String)
    (q : DB → List (List Cell)) (self : Row) :
    AbstractClass.get (some e) s criteria = Except.error e
    ∧ AbstractClass.filter (some e) s criteria columns = Except.error e
    ∧ AbstractClass.count (some e) s = Except.error e
    ∧ AbstractClass.run_query (some e) s q = Except.error e
    ∧ AbstractClass.delete (some e) cerr s self = Except.error e
    ∧ AbstractClass.delete none (some e) s self = Except.ok s.rollbackState :=
  ⟨rfl, rfl, rfl, rfl, rfl, rfl⟩

/-- C8 counterexample: at the concrete state `db8` (one matching row with
columns `a = 1`, `b = 2`), `filter` with columns `["a", "b"]` returns only
the first selected column's value `1` — not the selected subset of fields
`[[1, 2]]` that the claim promises; the value `2` of the selected column
`b` is absent from the result. -/
theorem C8_counterexample :
    AbstractClass.filter none db8 (fun _ => true) ["a", "b"]
        = Except.ok [Cell.value 1]
    ∧ filterColumnsSpec db8 (fun _ => true) ["a", "b"] = [[1, 2]]
    ∧ Cell.value 2 ∉ [Cell.value 1] := by
  refine ⟨rfl, rfl, by decide⟩

/-- C8 amended: `filter(criteria)` returns exactly the rows satisfying the
criteria (as entities, in the session state's order); when a nonempty
columns list is given, the result contains, for each matching row, only
the value of the first selected column — the trailing `.scalars()` call
drops every later column. -/
theorem C8_filter_rows_first_column (s : DB) (criteria : Row → Bool)
    (c : String) (cs : List String) :
    AbstractClass.filter none s criteria []
        = Except.ok ((s.current.filter criteria).map Cell.entity)
    ∧ AbstractClass.filter none s criteria (c :: cs)
        = Except.ok ((s.current.filter criteria).map
            (fun r => Cell.value (r.getAttr c))) := by
  constructor
  · simp [AbstractClass.filter, scalars_entity_rows]
  · have h := scalars_column_rows c cs (s.current.filter criteria)
    simpa [AbstractClass.filter] using
      congrArg (Except.ok (ε := DBError)) h

/-- C1: when the underlying session commit raises, `AbstractClass.commit`
catches the exception, rolls back, and does not re-raise — so on a clean
session, `create`, `update`, `delete_by_id` and `delete` all return
normally with the state unchanged (the staged object or change is not
persisted). -/
theorem C1_commit_swallows_errors (e : DBError) (s : DB) (id_ : Nat)
    (kwargs : List (String × Int)) (self : Row)
    (h : s.current = s.committed) :
    AbstractClass.commit (some e) s = ⟨s.committed, s.committed⟩
    ∧ (AbstractClass.create (some e) s kwargs).1 = s
    ∧ AbstractClass.update none (some e) s id_ kwargs = Except.ok s
    ∧ AbstractClass.delete_by_id none (some e) s id_ = Except.ok s
    ∧ AbstractClass.delete none (some e) s self = Except.ok s := by
  obtain ⟨com, cur⟩ := s
  cases h
  exact ⟨rfl, rfl, rfl, rfl, rfl⟩

/-- C1 witness: the swallowing behavior at the concrete state `db8`. -/
theorem C1_commit_swallows_errors_witness :
    AbstractClass.commit (some err0) db8 = ⟨db8.committed, db8.committed⟩
    ∧ (AbstractClass.create (some err0) db8 [("a", 9)]).1 = db8
    ∧ AbstractClass.update none (some err0) db8 1 [("a", 9)] = Except.ok db8
    ∧ AbstractClass.delete_by_id none (some err0) db8 1 = Except.ok db8
    ∧ AbstractClass.delete none (some err0) db8 row8 = Except.ok db8 :=
  C1_commit_swallows_errors err0 db8 1 [("a", 9)] row8 rfl

/-- Result state of a successful create: the staged row is committed. -/
theorem create_ok_state (s : DB) (kwargs : List (String × Int)) :
    (AbstractClass.create none s kwargs).1
      = ⟨s.current ++ [⟨freshId s.current, kwargs⟩],
         s.current ++ [⟨freshId s.current, kwargs⟩]⟩ := rfl

/-- Returned object of a successful create: refresh finds the staged row
itself, since no existing row carries the fresh id. -/
theorem create_ok_obj (s : DB) (kwargs : List (String × Int)) :
    (AbstractClass.create none s kwargs).2 = ⟨freshId s.current, kwargs⟩ := by
  show (((s.current ++ [(⟨freshId s.current, kwargs⟩ : Row)]).find?
      (fun r => r.id == freshId s.current)).getD ⟨freshId s.current, kwargs⟩) = _
  rw [find?_append_of_all_false _ _ _
    (fun x hx => id_beq_freshId x s.current hx)]
  simp [List.find?]

/-- C3: create followed by get on the returned object's id yields exactly
the object create returned — equal in all fields — for every starting
state and every kwargs, when the commit and the query succeed. -/
theorem C3_create_get_roundtrip (s : DB) (kwargs : List (String × Int)) :
    AbstractClass.get none (AbstractClass.create none s kwargs).1
        (fun r => r.id == (AbstractClass.create none s kwargs).2.id)
      = Except.ok (some (AbstractClass.create none s kwargs).2) := by
  rw [create_ok_obj, create_ok_state]
  show Except.ok (((s.current ++ [(⟨freshId s.current, kwargs⟩ : Row)]).filter
      (fun r => r.id == freshId s.current)).head?) = _
  rw [List.filter_append,
      List.filter_eq_nil_iff.mpr
        (fun a ha => by simp [id_beq_freshId a s.current ha])]
  simp [List.filter]

/-- C7: get returns at most one entity (an optional value): the none-value
exactly when no row satisfies the criteria, and the first row produced by
the query engine (the head of the matching rows) when one or more do. -/
theorem C7_get_at_most_one (s : DB) (criteria : Row → Bool) :
    (AbstractClass.get none s criteria = Except.ok none
        ↔ ∀ r ∈ s.current, criteria r = false)
    ∧ ∀ r rest, s.current.filter criteria = r :: rest →
        AbstractClass.get none s criteria = Except.ok (some r) := by
  constructor
  · constructor
    · intro h r hr
      have hh : (s.current.filter criteria).head? = none := by
        simpa [AbstractClass.get] using h
      rw [List.head?_eq_none_iff] at hh
      have := List.filter_eq_nil_iff.mp hh r hr
      simpa using this
    · intro h
      have hnil : s.current.filter criteria = [] :=
        List.filter_eq_nil_iff.mpr (fun a ha => by simp [h a ha])
      simp [AbstractClass.get, hnil]
  · intro r rest h
    simp [AbstractClass.get, h]

/-- C7 witness: at a concrete two-row state, get by id 1 returns the
first (and only) matching row. -/
theorem C7_get_at_most_one_witness :
    AbstractClass.get none db4 (fun r => r.id == 1) = Except.ok (some rowA) :=
  (C7_get_at_most_one db4 (fun r => r.id == 1)).2 rowA [] (by decide)

/-- Length split of a row list by an id test. -/
theorem length_filter_id_add (id_ : Nat) (l : List Row) :
    (l.filter (fun r => r.id == id_)).length
      + (l.filter (fun r => !(r.id == id_))).length = l.length := by
  induction l with
  | nil => rfl
  | cons x xs ih =>
      by_cases h : x.id = id_ <;> simp [List.filter_cons, h] <;> omega

/-- Deleting by id leaves no row matching that id. -/
theorem filter_not_id_filter_id (id_ : Nat) (l : List Row) :
    (l.filter (fun r => !(r.id == id_))).filter (fun r => r.id == id_) = [] := by
  rw [List.filter_eq_nil_iff]
  intro a ha
  have := (List.mem_filter.mp ha).2
  simp at this
  simp [this]

/-- C4: after delete_by_id (engine and commit succeeding), get by that id
returns the none-value; with pairwise-distinct primary keys the row count
decreases by exactly one when the id was present, and is unchanged — with
no error raised — when it was absent. -/
theorem C4_delete_by_id_count (s : DB) (id_ : Nat)
    (hnd : (s.current.map Row.id).Nodup) :
    ∃ t, AbstractClass.delete_by_id none none s id_ = Except.ok t
      ∧ AbstractClass.get none t (fun r => r.id == id_) = Except.ok none
      ∧ ((∃ r ∈ s.current, r.id = id_) →
          AbstractClass.count none t = Except.ok (s.current.length - 1)
          ∧ 1 ≤ s.current.length)
      ∧ ((∀ r ∈ s.current, r.id ≠ id_) →
          AbstractClass.count none t = Except.ok s.current.length) := by
  refine ⟨_, rfl, ?_, ?_, ?_⟩
  · show Except.ok (((s.current.filter (fun r => !(r.id == id_))).filter
        (fun r => r.id == id_)).head?) = _
    rw [filter_not_id_filter_id]
    rfl
  · intro hex
    constructor
    · show Except.ok (s.current.filter (fun r => !(r.id == id_))).length = _
      have h1 := length_filter_id_eq_one id_ s.current hnd hex
      have h2 := length_filter_id_add id_ s.current
      congr 1
      omega
    · rcases hex with ⟨r, hr, _⟩
      exact List.length_pos_of_mem hr
  · intro habs
    show Except.ok (s.current.filter (fun r => !(r.id == id_))).length = _
    rw [List.filter_eq_self.mpr (fun a ha => by simp [habs a ha])]

/-- C4 witness: deleting id 1 from the concrete two-row state makes get
return the none-value and drops the count from 2 to 1. -/
theorem C4_delete_by_id_count_witness :
    ∃ t, AbstractClass.delete_by_id none none db4 1 = Except.ok t
      ∧ AbstractClass.get none t (fun r => r.id == 1) = Except.ok none
      ∧ AbstractClass.count none t = Except.ok 1 := by
  rcases C4_delete_by_id_count db4 1 (by decide) with ⟨t, h1, h2, h3, _⟩
  exact ⟨t, h1, h2, (h3 ⟨rowA, by decide, rfl⟩).1⟩

/-- A written column reads back as the written value. -/
theorem getAttr_setAttr (r : Row) (f : String) (v : Int) :
    (r.setAttr f v).getAttr f = v := by
  simp [Row.getAttr, Row.setAttr]

/-- After a targeted UPDATE whose id is present, the matching rows start
with a row whose updated column holds the written value. -/
theorem filter_update_head (id_ : Nat) (f : String) (v : Int) (l : List Row)
    (hex : ∃ r ∈ l, r.id = id_) :
    ∃ r rest,
      (l.map (fun x => if x.id == id_ then x.setAttrs [(f, v)] else x)).filter
        (fun x => x.id == id_) = r :: rest
      ∧ r.getAttr f = v := by
  induction l with
  | nil => rcases hex with ⟨r, hr, _⟩; cases hr
  | cons x xs ih =>
      by_cases hx : x.id = id_
      · refine ⟨x.setAttrs [(f, v)],
          (xs.map (fun y => if y.id == id_ then y.setAttrs [(f, v)] else y)).filter
            (fun y => y.id == id_), ?_, getAttr_setAttr x f v⟩
        simp [List.filter_cons, Row.setAttrs, Row.setAttr, hx]
      · have hxb : (x.id == id_) = false := by simpa using hx
        rcases hex with ⟨r, hr, hrid⟩
        rcases List.mem_cons.mp hr with h | h
        · subst h; exact absurd hrid hx
        · rcases ih ⟨r, h, hrid⟩ with ⟨a, as, hfl, hget⟩
          refine ⟨a, as, ?_, hget⟩
          simp only [List.map_cons, hxb, Bool.false_eq_true, if_false,
            List.filter_cons]
          exact hfl

/-- C5: update of one field on an existing id followed by get on that id
returns an entity whose updated field equals the written value. -/
theorem C5_update_get_field (s : DB) (id_ : Nat) (f : String) (v : Int)
    (hex : ∃ r ∈ s.current, r.id = id_) :
    ∃ t r, AbstractClass.update none none s id_ [(f, v)] = Except.ok t
      ∧ AbstractClass.get none t (fun x => x.id == id_) = Except.ok (some r)
      ∧ r.getAttr f = v := by
  rcases filter_update_head id_ f v s.current hex with ⟨r, rest, hfl, hget⟩
  refine ⟨_, r, rfl, ?_, hget⟩
  show Except.ok (((s.current.map
      (fun x => if x.id == id_ then x.setAttrs [(f, v)] else x)).filter
        (fun x => x.id == id_)).head?) = _
  rw [hfl]
  rfl

/-- C5 witness: writing column a to 7 on id 1 of the concrete state, get
by id 1 reads back 7. -/
theorem C5_update_get_field_witness :
    ∃ t r, AbstractClass.update none none db4 1 [("a", 7)] = Except.ok t
      ∧ AbstractClass.get none t (fun x => x.id == 1) = Except.ok (some r)
      ∧ r.getAttr "a" = 7 :=
  C5_update_get_field db4 1 "a" 7 ⟨rowA, by decide, rfl⟩

/-- C6: a targeted update whose id matches no row raises no error and
leaves the table — every row and the row count — unchanged. -/
theorem C6_update_absent_noop (s : DB) (id_ : Nat)
    (kwargs : List (String × Int))
    (habs : ∀ r ∈ s.current, r.id ≠ id_) :
    ∃ t, AbstractClass.update none none s id_ kwargs = Except.ok t
      ∧ t.current = s.current
      ∧ AbstractClass.count none t = AbstractClass.count none s := by
  refine ⟨_, rfl, ?_, ?_⟩
  · show (s.current.map (fun r => if r.id == id_ then r.setAttrs kwargs else r))
        = s.current
    exact map_update_id_of_absent id_ kwargs s.current habs
  · show Except.ok (s.current.map
        (fun r => if r.id == id_ then r.setAttrs kwargs else r)).length
        = Except.ok s.current.length
    rw [map_update_id_of_absent id_ kwargs s.current habs]

/-- C6 witness: updating the absent id 99 on the concrete state leaves the
rows and the count unchanged. -/
theorem C6_update_absent_noop_witness :
    ∃ t, AbstractClass.update none none db4 99 [("a", 7)] = Except.ok t
      ∧ t.current = db4.current
      ∧ AbstractClass.count none t = AbstractClass.count none db4 :=
  C6_update_absent_noop db4 99 [("a", 7)] (by decide)
